import Mathlib

/-!
Verification of the authentication core of the Grocery-Management-System
backend: the token service (`src/Auth/jwt.js`) and the gate middleware
(`src/Auth/auth.js`).

The JavaScript is embedded shallowly:

* `jwt.sign(payload, secret, { expiresIn: "4h" })` and
  `jwt.verify(token, secret)` from the `jsonwebtoken` library are modelled
  symbolically: a signed token is an injective, space-free string encoding
  of the claims set `{payload, iat, exp}` together with the signing secret
  (the embedded secret plays the role of an unforgeable signature, the
  standard symbolic-crypto idealization).  `jwt.verify` decodes the string,
  checks the signature (secret equality) and checks expiry
  (`jsonwebtoken` rejects a token exactly when `now >= exp`); the JS
  `try { ... } catch { return null }` boundary of `verifyToken` is the
  `Option` codomain: every failure is the single undifferentiated `none`.
* Clocks are explicit: every operation takes `now` (seconds) where the JS
  reads the process clock.
* An HTTP request reaches the middleware as its (already lowercased)
  `authorization` header: `Option String`, `none` for an absent header.
* `authHeader.split(" ")` is embedded as `jsSplitSpace`, which follows the
  semantics of JS `String.prototype.split` with a single-space separator.
* The middleware's effects are reified in `GateOutcome`: `status c` for
  `res.sendStatus(c)` (no context attached, `next` not invoked) and
  `allow d` for `req.user = d; next()`.
-/

/-- `expiresIn: "4h"` — the fixed token TTL in seconds. -/
def tokenTTL : Nat := 4 * 60 * 60

/-- The payload object passed to `jwt.sign`.  The repository's login route
passes `{ Username: employee.Username }`; issuers may embed further claims,
kept here as an association list that the gate treats as opaque. -/
structure Payload where
  Username : String
  extra : List (String × String)
deriving DecidableEq, Repr

/-- The claims object returned by a successful `jwt.verify`: the payload
fields together with the library-added `iat` and `exp` claims. -/
structure Decoded where
  payload : Payload
  iat : Nat
  exp : Nat
deriving DecidableEq, Repr

/-! ### Wire encoding of signed tokens

A compact injective encoding over the two-character alphabet `{'1', '#'}`
(in particular it contains no space, as a real base64url JWT does not).
Numbers are unary; strings are length-prefixed lists of code points. -/

def encNat : Nat → List Char
  | 0 => ['#']
  | n + 1 => '1' :: encNat n

def decNat : List Char → Option (Nat × List Char)
  | [] => none
  | c :: rest =>
    if c = '#' then some (0, rest)
    else if c = '1' then
      match decNat rest with
      | some (n, r) => some (n + 1, r)
      | none => none
    else none

def encChars : List Char → List Char
  | [] => []
  | c :: cs => encNat c.toNat ++ encChars cs

def decChars : Nat → List Char → Option (List Char × List Char)
  | 0, r => some ([], r)
  | n + 1, input =>
    match decNat input with
    | some (k, r) =>
      match decChars n r with
      | some (cs, r') => some (Char.ofNat k :: cs, r')
      | none => none
    | none => none

def encStr (s : String) : List Char :=
  encNat s.data.length ++ encChars s.data

def decStr (input : List Char) : Option (String × List Char) :=
  match decNat input with
  | some (n, r) =>
    match decChars n r with
    | some (cs, r') => some (String.mk cs, r')
    | none => none
  | none => none

def encPairs : List (String × String) → List Char
  | [] => []
  | (k, v) :: ps => encStr k ++ (encStr v ++ encPairs ps)

def decPairs : Nat → List Char → Option (List (String × String) × List Char)
  | 0, r => some ([], r)
  | n + 1, input =>
    match decStr input with
    | some (k, r) =>
      match decStr r with
      | some (v, r') =>
        match decPairs n r' with
        | some (ps, r'') => some ((k, v) :: ps, r'')
        | none => none
      | none => none
    | none => none

def encPayload (p : Payload) : List Char :=
  encStr p.Username ++ (encNat p.extra.length ++ encPairs p.extra)

def decPayload (input : List Char) : Option (Payload × List Char) :=
  match decStr input with
  | some (u, r) =>
    match decNat r with
    | some (n, r') =>
      match decPairs n r' with
      | some (ps, r'') => some (⟨u, ps⟩, r'')
      | none => none
    | none => none
  | none => none

/-- The full wire form of a signed token: payload, `iat`, `exp`, and the
signing secret standing in for the signature. -/
def encJwt (p : Payload) (iat exp : Nat) (secret : String) : List Char :=
  encPayload p ++ (encNat iat ++ (encNat exp ++ encStr secret))

/-- Structural decoding of a candidate token string.  Returns `none` on any
malformed input (including trailing garbage), mirroring `JsonWebTokenError`
for unparseable tokens. -/
def decJwt (input : List Char) : Option (Payload × Nat × Nat × String) :=
  match decPayload input with
  | some (p, r) =>
    match decNat r with
    | some (iat, r') =>
      match decNat r' with
      | some (e, r'') =>
        match decStr r'' with
        | some (s, rest) => if rest = [] then some (p, iat, e, s) else none
        | none => none
      | none => none
    | none => none
  | none => none

/-! ### The `jsonwebtoken` operations (model of the library calls made by
`src/Auth/jwt.js`) -/

/-- `jwt.sign(payload, secret, { expiresIn: "4h" })` at clock `now`:
a signed token embedding the payload, `iat = now` and
`exp = now + tokenTTL`. -/
def jwtSign (now : Nat) (p : Payload) (secret : String) : String :=
  String.mk (encJwt p now (now + tokenTTL) secret)

/-- `jwt.verify(token, secret)` at clock `now`, with the surrounding
`try`/`catch` of `verifyToken` folded in: decode, check the signature
against `secret`, check expiry (`jsonwebtoken` throws `TokenExpiredError`
exactly when `now >= exp`); any failure is the one result `none`. -/
def jwtVerify (now : Nat) (token : String) (secret : String) : Option Decoded :=
  match decJwt token.data with
  | some (p, iat, e, s) =>
    if s = secret then
      if now < e then some ⟨p, iat, e⟩ else none
    else none
  | none => none

/-! ### `src/Auth/jwt.js` -/

/-- `const secretKey = "JamesSecretKey";` — the process-wide signing
secret, a hardcoded constant. -/
def secretKey : String := "JamesSecretKey"

/-- `generateToken(payload)` at clock `now`:
`jwt.sign(payload, secretKey, { expiresIn: "4h" })`. -/
def generateToken (now : Nat) (payload : Payload) : String :=
  jwtSign now payload secretKey

/-- `verifyToken(token)` at clock `now`:
`try { return jwt.verify(token, secretKey) } catch { return null }`. -/
def verifyToken (now : Nat) (token : String) : Option Decoded :=
  jwtVerify now token secretKey

/-! ### `src/Auth/auth.js` -/

/-- The observable outcome of one run of the middleware on one request:
`status c` for `return res.sendStatus(c)` (no `req.user`, no `next()`), and
`allow d` for `req.user = d; next()`. -/
inductive GateOutcome where
  | status (code : Nat)
  | allow (user : Decoded)
deriving DecidableEq, Repr

def splitSpAux : List Char → List Char → List String
  | [], acc => [String.mk acc.reverse]
  | c :: rest, acc =>
    if c = ' ' then String.mk acc.reverse :: splitSpAux rest []
    else splitSpAux rest (c :: acc)

/-- JS `s.split(" ")`: split at every space, keeping empty fragments;
`"".split(" ")` is `[""]`. -/
def jsSplitSpace (s : String) : List String :=
  splitSpAux s.data []

/-- `const token = authHeader && authHeader.split(" ")[1];` with JS
semantics made explicit: an absent header (`undefined`) short-circuits to
`undefined`; an empty header (falsy `""`) short-circuits to the string
`""` itself; otherwise the part after the first space, which is
`undefined` when the split has no second element.  `none` models
`undefined`/`null` (the values caught by `token == null`). -/
def extractToken : Option String → Option String
  | none => none
  | some h => if h = "" then some "" else (jsSplitSpace h).get? 1

/-- The body of `authenticateToken`, parametric in the verifier so that
independence from verification can be stated: `401` when
`token == null`, otherwise `403` or admission by the verifier's verdict. -/
def gateWith (verify : String → Option Decoded) (authHeader : Option String) :
    GateOutcome :=
  match extractToken authHeader with
  | none => GateOutcome.status 401
  | some tok =>
    match verify tok with
    | some d => GateOutcome.allow d
    | none => GateOutcome.status 403

/-- `authenticateToken(req, res, next)` at clock `now`, as a function of
the request's `authorization` header. -/
def authenticateToken (now : Nat) (authHeader : Option String) : GateOutcome :=
  gateWith (fun t => verifyToken now t) authHeader

/-! ### Round-trip of the wire encoding -/

theorem decNat_encNat : ∀ (n : Nat) (r : List Char), decNat (encNat n ++ r) = some (n, r)
  | 0, r => rfl
  | n + 1, r => by
    show decNat ('1' :: (encNat n ++ r)) = some (n + 1, r)
    unfold decNat
    rw [if_neg (by decide), if_pos rfl, decNat_encNat n r]

theorem decChars_encChars : ∀ (cs r : List Char),
    decChars cs.length (encChars cs ++ r) = some (cs, r)
  | [], r => rfl
  | c :: cs, r => by
    show decChars (cs.length + 1) ((encNat c.toNat ++ encChars cs) ++ r) = _
    rw [List.append_assoc]
    simp only [decChars, decNat_encNat, decChars_encChars cs r, Char.ofNat_toNat]

theorem decStr_encStr (s : String) (r : List Char) :
    decStr (encStr s ++ r) = some (s, r) := by
  rw [encStr, List.append_assoc]
  simp only [decStr, decNat_encNat, decChars_encChars]

theorem decStr_encStr_nil (s : String) : decStr (encStr s) = some (s, []) := by
  have h := decStr_encStr s []
  rwa [List.append_nil] at h

theorem decPairs_encPairs : ∀ (ps : List (String × String)) (r : List Char),
    decPairs ps.length (encPairs ps ++ r) = some (ps, r)
  | [], r => rfl
  | (k, v) :: ps, r => by
    show decPairs (ps.length + 1) ((encStr k ++ (encStr v ++ encPairs ps)) ++ r) = _
    rw [List.append_assoc, List.append_assoc]
    simp only [decPairs, decStr_encStr, decPairs_encPairs ps r]

theorem decPayload_encPayload (p : Payload) (r : List Char) :
    decPayload (encPayload p ++ r) = some (p, r) := by
  rw [encPayload, List.append_assoc, List.append_assoc]
  simp only [decPayload, decStr_encStr, decNat_encNat, decPairs_encPairs]

theorem decJwt_encJwt (p : Payload) (iat e : Nat) (s : String) :
    decJwt (encJwt p iat e s) = some (p, iat, e, s) := by
  rw [encJwt]
  simp only [decJwt, decPayload_encPayload, decNat_encNat, decStr_encStr_nil]
  rfl

/-! ### The wire encoding is space-free -/

def binAlpha (l : List Char) : Prop := ∀ c ∈ l, c = '1' ∨ c = '#'

theorem binAlpha_append {a b : List Char} (ha : binAlpha a) (hb : binAlpha b) :
    binAlpha (a ++ b) := by
  intro c hc
  rcases List.mem_append.mp hc with h | h
  · exact ha c h
  · exact hb c h

theorem binAlpha_encNat : ∀ n, binAlpha (encNat n)
  | 0 => by intro c hc; simp [encNat] at hc; simp [hc]
  | n + 1 => by
    intro c hc
    rcases List.mem_cons.mp hc with h | h
    · simp [h]
    · exact binAlpha_encNat n c h

theorem binAlpha_encChars : ∀ cs, binAlpha (encChars cs)
  | [] => by intro c hc; simp [encChars] at hc
  | c :: cs =>
    binAlpha_append (binAlpha_encNat c.toNat) (binAlpha_encChars cs)

theorem binAlpha_encStr (s : String) : binAlpha (encStr s) :=
  binAlpha_append (binAlpha_encNat _) (binAlpha_encChars _)

theorem binAlpha_encPairs : ∀ ps, binAlpha (encPairs ps)
  | [] => by intro c hc; simp [encPairs] at hc
  | (k, v) :: ps =>
    binAlpha_append (binAlpha_encStr k)
      (binAlpha_append (binAlpha_encStr v) (binAlpha_encPairs ps))

theorem binAlpha_encPayload (p : Payload) : binAlpha (encPayload p) :=
  binAlpha_append (binAlpha_encStr _)
    (binAlpha_append (binAlpha_encNat _) (binAlpha_encPairs _))

theorem binAlpha_encJwt (p : Payload) (iat e : Nat) (s : String) :
    binAlpha (encJwt p iat e s) :=
  binAlpha_append (binAlpha_encPayload p)
    (binAlpha_append (binAlpha_encNat _)
      (binAlpha_append (binAlpha_encNat _) (binAlpha_encStr _)))

theorem no_space_of_binAlpha {l : List Char} (h : binAlpha l) :
    ∀ c ∈ l, c ≠ ' ' := by
  intro c hc
  rcases h c hc with h1 | h1 <;> simp [h1]

theorem jwtSign_no_space (now : Nat) (p : Payload) (s : String) :
    ∀ c ∈ (jwtSign now p s).data, c ≠ ' ' :=
  no_space_of_binAlpha (binAlpha_encJwt p now (now + tokenTTL) s)

/-! ### Header parsing -/

theorem splitSpAux_no_space : ∀ (l acc : List Char), (∀ c ∈ l, c ≠ ' ') →
    splitSpAux l acc = [String.mk (acc.reverse ++ l)]
  | [], acc, _ => by simp [splitSpAux]
  | c :: rest, acc, h => by
    have hc : c ≠ ' ' := h c (List.mem_cons_self c rest)
    simp only [splitSpAux, if_neg hc]
    rw [splitSpAux_no_space rest (c :: acc) (fun x hx => h x (List.mem_cons_of_mem c hx))]
    simp

theorem jsSplitSpace_bearer (t : String) (ht : ∀ c ∈ t.data, c ≠ ' ') :
    jsSplitSpace ("Bearer " ++ t) = ["Bearer", t] := by
  have hdata : ("Bearer " ++ t).data =
      'B' :: 'e' :: 'a' :: 'r' :: 'e' :: 'r' :: ' ' :: t.data := by
    rw [String.data_append]
    rfl
  rw [jsSplitSpace, hdata]
  simp only [splitSpAux, if_neg (by decide : ('B' : Char) ≠ ' '),
    if_neg (by decide : ('e' : Char) ≠ ' '), if_neg (by decide : ('a' : Char) ≠ ' '),
    if_neg (by decide : ('r' : Char) ≠ ' '), if_pos rfl]
  rw [splitSpAux_no_space t.data [] ht]
  simp

theorem bearer_ne_empty (t : String) : "Bearer " ++ t ≠ "" := by
  intro h
  have := congrArg String.data h
  rw [String.data_append] at this
  simp at this

theorem extractToken_bearer (t : String) (ht : ∀ c ∈ t.data, c ≠ ' ') :
    extractToken (some ("Bearer " ++ t)) = some t := by
  rw [extractToken, if_neg (bearer_ne_empty t), jsSplitSpace_bearer t ht]
  rfl

/-! ### Verification of signed tokens -/

theorem jwtVerify_jwtSign (now now' : Nat) (p : Payload) (s : String) :
    jwtVerify now' (jwtSign now p s) s =
      if now' < now + tokenTTL then some ⟨p, now, now + tokenTTL⟩ else none := by
  simp only [jwtVerify, jwtSign, decJwt_encJwt]
  simp

theorem jwtVerify_jwtSign_ne (now now' : Nat) (p : Payload) (s s' : String)
    (h : s ≠ s') : jwtVerify now' (jwtSign now p s) s' = none := by
  simp only [jwtVerify, jwtSign, decJwt_encJwt, if_neg h]

theorem verifyToken_generateToken (now now' : Nat) (p : Payload) :
    verifyToken now' (generateToken now p) =
      if now' < now + tokenTTL then some ⟨p, now, now + tokenTTL⟩ else none := by
  rw [verifyToken, generateToken, jwtVerify_jwtSign]

/-! ### The gate on a fresh token (shared helper) -/

theorem gate_allows_fresh (now : Nat) (p : Payload) :
    authenticateToken now (some ("Bearer " ++ generateToken now p)) =
      GateOutcome.allow ⟨p, now, now + tokenTTL⟩ := by
  have hns : ∀ c ∈ (generateToken now p).data, c ≠ ' ' :=
    jwtSign_no_space now p secretKey
  simp only [authenticateToken, gateWith, extractToken_bearer _ hns,
    verifyToken_generateToken]
  rw [if_pos (Nat.lt_add_of_pos_right (by decide))]

/-! ### Inversion helpers -/

theorem verifyToken_some_iff (now : Nat) (t : String) (d : Decoded) :
    verifyToken now t = some d ↔
      decJwt t.data = some (d.payload, d.iat, d.exp, secretKey) ∧ now < d.exp := by
  obtain ⟨dp, di, de⟩ := d
  rw [verifyToken, jwtVerify]
  cases hd : decJwt t.data with
  | none => simp
  | some q =>
    obtain ⟨p, iat, e, s⟩ := q
    by_cases hs : s = secretKey
    · subst hs
      by_cases hlt : now < e
      · simp only [if_pos rfl, eq_self_iff_true, if_true, if_pos hlt,
          Option.some.injEq, Prod.mk.injEq, Decoded.mk.injEq, and_true]
        constructor
        · rintro ⟨h1, h2, h3⟩
          exact ⟨⟨h1, h2, h3⟩, h3 ▸ hlt⟩
        · rintro ⟨⟨h1, h2, h3⟩, -⟩
          exact ⟨h1, h2, h3⟩
      · simp only [if_pos rfl, eq_self_iff_true, if_true, if_neg hlt,
          Option.some.injEq, Prod.mk.injEq, Decoded.mk.injEq, and_true]
        constructor
        · intro hfalse; exact Option.noConfusion hfalse
        · rintro ⟨⟨-, -, h3⟩, h4⟩
          subst h3; exact absurd h4 hlt
    · simp only [if_neg hs, Option.some.injEq, Prod.mk.injEq]
      constructor
      · intro hfalse; exact Option.noConfusion hfalse
      · rintro ⟨⟨-, -, -, h4⟩, -⟩
        exact absurd h4 hs

theorem gate_allow_inversion (now : Nat) (h : Option String) (d : Decoded)
    (hall : authenticateToken now h = GateOutcome.allow d) :
    ∃ t : String, extractToken h = some t ∧ verifyToken now t = some d := by
  rw [authenticateToken, gateWith] at hall
  cases hext : extractToken h with
  | none =>
    simp only [hext] at hall
    exact GateOutcome.noConfusion hall
  | some t =>
    simp only [hext] at hall
    cases hv : verifyToken now t with
    | none =>
      simp only [hv] at hall
      exact GateOutcome.noConfusion hall
    | some d2 =>
      simp only [hv, GateOutcome.allow.injEq] at hall
      exact ⟨t, rfl, by rw [hv, hall]⟩

theorem jwtVerify_mk_encJwt (now iat e : Nat) (p : Payload) (s key : String) :
    jwtVerify now (String.mk (encJwt p iat e s)) key =
      if s = key then (if now < e then some ⟨p, iat, e⟩ else none) else none := by
  have hdata : (String.mk (encJwt p iat e s)).data = encJwt p iat e s := rfl
  rw [jwtVerify, hdata]
  simp only [decJwt_encJwt]

/-! ### The claims -/

/-- Claim C1: the gate produces exactly the mapped outcome for the three
request classes — a request with no Authorization header receives 401; a
request carrying a credential (an extracted token part) that fails
verification receives 403; a request carrying a freshly issued valid token
is admitted to the next handler with the correct decoded identity attached
as the request context. -/
theorem c1_gate_status_mapping (now : Nat) :
    authenticateToken now none = GateOutcome.status 401 ∧
    (∀ (h : Option String) (t : String), extractToken h = some t →
      verifyToken now t = none → authenticateToken now h = GateOutcome.status 403) ∧
    (∀ p : Payload, authenticateToken now (some ("Bearer " ++ generateToken now p)) =
      GateOutcome.allow ⟨p, now, now + tokenTTL⟩) := by
  refine ⟨rfl, ?_, fun p => gate_allows_fresh now p⟩
  intro h t hext hver
  simp only [authenticateToken, gateWith, hext, hver]

/-- Claim C1, witness: at clock 0, an absent header gets 401, the header
`Bearer x` gets 403, and a header carrying a token freshly issued for
`bob` is admitted with identity `bob`. -/
theorem c1_gate_status_mapping_witness :
    authenticateToken 0 none = GateOutcome.status 401 ∧
    authenticateToken 0 (some "Bearer x") = GateOutcome.status 403 ∧
    authenticateToken 0 (some ("Bearer " ++ generateToken 0 ⟨"bob", []⟩)) =
      GateOutcome.allow ⟨⟨"bob", []⟩, 0, 0 + tokenTTL⟩ :=
  ⟨(c1_gate_status_mapping 0).1,
   (c1_gate_status_mapping 0).2.1 (some "Bearer x") "x" rfl rfl,
   (c1_gate_status_mapping 0).2.2 ⟨"bob", []⟩⟩

/-- Claim C2: verifying a token immediately after it was issued recovers
the identity it was issued for — with the same clock and the same signing
secret on both sides, for the parametric library pair and in particular
for the repository's `generateToken`/`verifyToken` under `secretKey`. -/
theorem c2_round_trip (now : Nat) (p : Payload) :
    (∀ s : String, jwtVerify now (jwtSign now p s) s =
      some ⟨p, now, now + tokenTTL⟩) ∧
    verifyToken now (generateToken now p) = some ⟨p, now, now + tokenTTL⟩ ∧
    (verifyToken now (generateToken now p)).map Decoded.payload = some p := by
  have h1 : ∀ s : String, jwtVerify now (jwtSign now p s) s =
      some ⟨p, now, now + tokenTTL⟩ := by
    intro s
    rw [jwtVerify_jwtSign, if_pos (Nat.lt_add_of_pos_right (by decide))]
  have h2 : verifyToken now (generateToken now p) =
      some ⟨p, now, now + tokenTTL⟩ := h1 secretKey
  exact ⟨h1, h2, by rw [h2]; rfl⟩

/-- Claim C3: every issued token embeds expiry = issuance time + the fixed
4-hour TTL, and verifying any token strictly more than the TTL after its
issuance returns Invalid (`none`). -/
theorem c3_ttl_expiry (now now' : Nat) (p : Payload)
    (hlate : now' > now + tokenTTL) :
    tokenTTL = 4 * 60 * 60 ∧
    decJwt (generateToken now p).data = some (p, now, now + tokenTTL, secretKey) ∧
    verifyToken now' (generateToken now p) = none := by
  refine ⟨rfl, decJwt_encJwt p now (now + tokenTTL) secretKey, ?_⟩
  rw [verifyToken_generateToken, if_neg (by omega)]

/-- Claim C3, witness: a token issued for `alice` at clock 0 is rejected
at clock 14401, one second past the 4-hour TTL. -/
theorem c3_ttl_expiry_witness :
    14401 > 0 + tokenTTL ∧
    verifyToken 14401 (generateToken 0 ⟨"alice", []⟩) = none :=
  ⟨by decide, (c3_ttl_expiry 0 14401 ⟨"alice", []⟩ (by decide)).2.2⟩

/-- Claim C4: `verifyToken` is total at its boundary — on every input
string it returns the decoded claims exactly when the token decodes under
the process secret and is unexpired, and otherwise the single
undifferentiated `none`; each of the three failure causes (malformed
token, signature mismatch, expiry elapsed) yields that same `none`. -/
theorem c4_verify_total_undifferentiated (now : Nat) :
    (∀ t : String, verifyToken now t = none ∨
      ∃ (p : Payload) (iat e : Nat), decJwt t.data = some (p, iat, e, secretKey) ∧
        now < e ∧ verifyToken now t = some ⟨p, iat, e⟩) ∧
    (∀ t : String, decJwt t.data = none → verifyToken now t = none) ∧
    (∀ (p : Payload) (iat e : Nat) (s : String), s ≠ secretKey →
      verifyToken now (String.mk (encJwt p iat e s)) = none) ∧
    (∀ (p : Payload) (iat e : Nat), e ≤ now →
      verifyToken now (String.mk (encJwt p iat e secretKey)) = none) := by
  refine ⟨?_, ?_, ?_, ?_⟩
  · intro t
    cases hv : verifyToken now t with
    | none => exact Or.inl rfl
    | some d =>
      obtain ⟨hd, hlt⟩ := (verifyToken_some_iff now t d).mp hv
      exact Or.inr ⟨d.payload, d.iat, d.exp, hd, hlt, rfl⟩
  · intro t hmal
    rw [verifyToken, jwtVerify, hmal]
  · intro p iat e s hs
    rw [verifyToken, jwtVerify_mk_encJwt, if_neg hs]
  · intro p iat e hexp
    rw [verifyToken, jwtVerify_mk_encJwt, if_pos rfl,
      if_neg (Nat.not_lt.mpr hexp)]

/-- Claim C4, witness: the unparseable string `x`, a token signed with the
wrong secret, and an expired token signed with the right secret all map to
the same `none`. -/
theorem c4_verify_total_undifferentiated_witness :
    (decJwt ("x" : String).data = none ∧ verifyToken 0 "x" = none) ∧
    (("" : String) ≠ secretKey ∧
      verifyToken 0 (String.mk (encJwt ⟨"a", []⟩ 0 1 "")) = none) ∧
    ((1 : Nat) ≤ 1 ∧
      verifyToken 1 (String.mk (encJwt ⟨"a", []⟩ 0 1 secretKey)) = none) :=
  ⟨⟨rfl, (c4_verify_total_undifferentiated 0).2.1 "x" rfl⟩,
   ⟨by decide, (c4_verify_total_undifferentiated 0).2.2.1 ⟨"a", []⟩ 0 1 "" (by decide)⟩,
   ⟨Nat.le_refl 1,
    (c4_verify_total_undifferentiated 1).2.2.2 ⟨"a", []⟩ 0 1 (Nat.le_refl 1)⟩⟩

/-- Claim C5, counterexample: the header `Basic abc` is not in the
`Bearer <token>` shape (different scheme word), yet the gate does not
respond 401 — the scheme word is never inspected, `abc` is extracted and
passed to verification, and the request receives 403. -/
theorem c5_counterexample_scheme_not_checked :
    extractToken (some "Basic abc") = some "abc" ∧
    authenticateToken 0 (some "Basic abc") = GateOutcome.status 403 ∧
    authenticateToken 0 (some "Basic abc") ≠ GateOutcome.status 401 := by
  refine ⟨rfl, rfl, by decide⟩

/-- Claim C5 (amended): the gate responds 401 — for every verifier, hence
with no token verification performed — exactly when no token part is
extracted: the header is absent, or it is a non-empty string whose
space-split has no second element (e.g. `Bearer` alone).  The scheme word
is not checked: whenever a token part is extracted, whatever the scheme,
the outcome is the verifier's verdict and never 401. -/
theorem c5_no_token_part_401 (verify : String → Option Decoded) :
    (∀ h : Option String, extractToken h = none →
      gateWith verify h = GateOutcome.status 401) ∧
    gateWith verify none = GateOutcome.status 401 ∧
    (∀ s : String, s ≠ "" → (jsSplitSpace s).get? 1 = none →
      gateWith verify (some s) = GateOutcome.status 401) ∧
    (∀ s t : String, extractToken (some s) = some t →
      gateWith verify (some s) ≠ GateOutcome.status 401) := by
  refine ⟨?_, rfl, ?_, ?_⟩
  · intro h hext
    simp only [gateWith, hext]
  · intro s hne hsplit
    have hext : extractToken (some s) = none := by
      rw [extractToken, if_neg hne, hsplit]
    simp only [gateWith, hext]
  · intro s t hext
    simp only [gateWith, hext]
    cases hv : verify t with
    | none => simp
    | some d => simp

/-- Claim C5 (amended), witness: `Bearer` alone (no token part) gets 401
under a verifier that accepts everything, showing no verification happens;
`Basic abc` extracts `abc` and is never 401. -/
theorem c5_no_token_part_401_witness :
    (extractToken (some "Bearer") = none ∧
      gateWith (fun _ => some ⟨⟨"a", []⟩, 0, 1⟩) (some "Bearer") =
        GateOutcome.status 401) ∧
    (("Bearer" : String) ≠ "" ∧ (jsSplitSpace "Bearer").get? 1 = none ∧
      gateWith (fun _ => some ⟨⟨"a", []⟩, 0, 1⟩) (some "Bearer") =
        GateOutcome.status 401) ∧
    (extractToken (some "Basic abc") = some "abc" ∧
      gateWith (fun _ => none) (some "Basic abc") ≠ GateOutcome.status 401) :=
  ⟨⟨rfl, (c5_no_token_part_401 (fun _ => some ⟨⟨"a", []⟩, 0, 1⟩)).1
      (some "Bearer") rfl⟩,
   ⟨by decide, rfl, (c5_no_token_part_401 (fun _ => some ⟨⟨"a", []⟩, 0, 1⟩)).2.2.1
      "Bearer" (by decide) rfl⟩,
   ⟨rfl, (c5_no_token_part_401 (fun _ => none)).2.2.2 "Basic abc" "abc" rfl⟩⟩

/-- Claim C6: per-request invariant — the gate admits with a security
context `d` only if a token extracted from that same request decoded under
the process secret to exactly `d`'s claims and was unexpired at the
request's clock; and on every rejected request (any `status` outcome) no
context is attached and the next handler is not invoked (the outcome is
not an `allow`). -/
theorem c6_context_requires_verification (now : Nat) (h : Option String) :
    (∀ d : Decoded, authenticateToken now h = GateOutcome.allow d →
      ∃ t : String, extractToken h = some t ∧ verifyToken now t = some d ∧
        decJwt t.data = some (d.payload, d.iat, d.exp, secretKey) ∧
        now < d.exp) ∧
    (∀ (c : Nat) (d : Decoded), authenticateToken now h = GateOutcome.status c →
      authenticateToken now h ≠ GateOutcome.allow d) := by
  constructor
  · intro d hall
    obtain ⟨t, hext, hv⟩ := gate_allow_inversion now h d hall
    obtain ⟨hd, hlt⟩ := (verifyToken_some_iff now t d).mp hv
    exact ⟨t, hext, hv, hd, hlt⟩
  · intro c d hstat hall
    rw [hstat] at hall
    exact GateOutcome.noConfusion hall

/-- Claim C6, witness: the request carrying a token freshly issued for
`bob` at clock 0 is admitted, and the invariant recovers the token with
its verified claims; a request with no header is rejected with 401 and is
not an admission. -/
theorem c6_context_requires_verification_witness :
    (∃ t : String,
      extractToken (some ("Bearer " ++ generateToken 0 ⟨"bob", []⟩)) = some t ∧
      verifyToken 0 t = some ⟨⟨"bob", []⟩, 0, 0 + tokenTTL⟩ ∧
      decJwt t.data = some (⟨"bob", []⟩, 0, 0 + tokenTTL, secretKey) ∧
      0 < 0 + tokenTTL) ∧
    authenticateToken 0 none ≠ GateOutcome.allow ⟨⟨"bob", []⟩, 0, 0 + tokenTTL⟩ := by
  constructor
  · obtain ⟨t, h1, h2, h3, h4⟩ :=
      (c6_context_requires_verification 0
          (some ("Bearer " ++ generateToken 0 ⟨"bob", []⟩))).1
        ⟨⟨"bob", []⟩, 0, 0 + tokenTTL⟩ (gate_allows_fresh 0 ⟨"bob", []⟩)
    exact ⟨t, h1, h2, h3, h4⟩
  · exact (c6_context_requires_verification 0 none).2 401
      ⟨⟨"bob", []⟩, 0, 0 + tokenTTL⟩ rfl

/-- Claim C7: a token issued under one signing secret verifies to Invalid
under every different secret — in particular every token issued by the
repository under `secretKey` is invalid under any rotated secret, with no
old token remaining valid. -/
theorem c7_rotation_invalidates (now now' : Nat) (p : Payload) :
    (∀ s s' : String, s ≠ s' → jwtVerify now' (jwtSign now p s) s' = none) ∧
    (∀ s' : String, secretKey ≠ s' → jwtVerify now' (generateToken now p) s' = none) := by
  constructor
  · intro s s' hne
    exact jwtVerify_jwtSign_ne now now' p s s' hne
  · intro s' hne
    exact jwtVerify_jwtSign_ne now now' p secretKey s' hne

/-- Claim C7, witness: a token signed at clock 0 under `"a"` is rejected
under `"b"` even at the same clock, and a repository token is rejected
under the rotated secret `"NewSecret"`. -/
theorem c7_rotation_invalidates_witness :
    (("a" : String) ≠ "b" ∧
      jwtVerify 0 (jwtSign 0 ⟨"alice", []⟩ "a") "b" = none) ∧
    (secretKey ≠ "NewSecret" ∧
      jwtVerify 0 (generateToken 0 ⟨"alice", []⟩) "NewSecret" = none) :=
  ⟨⟨by decide, (c7_rotation_invalidates 0 0 ⟨"alice", []⟩).1 "a" "b" (by decide)⟩,
   ⟨by decide, (c7_rotation_invalidates 0 0 ⟨"alice", []⟩).2 "NewSecret" (by decide)⟩⟩

/-- Claim C8: the signing secret is fixed at startup to the non-empty
constant `"JamesSecretKey"`; token issuance and verification always run
with exactly this secret, so they never run with an undefined or empty
secret (the misconfiguration the spec declares fatal is unrepresentable —
the secret is hardcoded at module load). -/
theorem c8_secret_constant_nonempty :
    secretKey = "JamesSecretKey" ∧
    secretKey ≠ "" ∧
    secretKey.data.length ≠ 0 ∧
    (∀ (now : Nat) (p : Payload), generateToken now p = jwtSign now p secretKey) ∧
    (∀ (now : Nat) (t : String), verifyToken now t = jwtVerify now t secretKey) :=
  ⟨rfl, by decide, by decide, fun _ _ => rfl, fun _ _ => rfl⟩

/-- Claim C9: an Authorization header equal to the empty string is not
caught by the `token == null` check — JS `&&` yields the falsy `""`
itself, which is not `null` — so the empty string reaches verification,
fails, and the request receives 403 rather than 401. -/
theorem c9_empty_header_403 (now : Nat) :
    extractToken (some "") = some "" ∧
    verifyToken now "" = none ∧
    authenticateToken now (some "") = GateOutcome.status 403 ∧
    authenticateToken now (some "") ≠ GateOutcome.status 401 := by
  refine ⟨rfl, rfl, rfl, ?_⟩
  intro hfalse
  have h : GateOutcome.status 403 = GateOutcome.status 401 := hfalse
  injection h with hn
  exact absurd hn (by decide)

/-- Claim C10: a successful verification returns the entire decoded claims
object — the payload (subject plus any extra issuer-embedded claims)
together with the `iat` and `exp` fields, not a bare identity — and the
gate attaches exactly that object, unchanged, as the request's security
context. -/
theorem c10_whole_claims_object_attached (now : Nat) :
    (∀ p : Payload, ∃ d : Decoded,
      verifyToken now (generateToken now p) = some d ∧
      d.payload = p ∧ d.iat = now ∧ d.exp = now + tokenTTL) ∧
    (∀ (h : Option String) (d : Decoded),
      authenticateToken now h = GateOutcome.allow d →
      ∃ t : String, extractToken h = some t ∧ verifyToken now t = some d) := by
  constructor
  · intro p
    refine ⟨⟨p, now, now + tokenTTL⟩, ?_, rfl, rfl, rfl⟩
    rw [verifyToken_generateToken, if_pos (Nat.lt_add_of_pos_right (by decide))]
  · intro h d hall
    exact gate_allow_inversion now h d hall

/-- Claim C10, witness: for a token issued for `carol` with an extra claim
`role ↦ admin`, the admitted context is the whole claims object — extra
claim, `iat` and `exp` included. -/
theorem c10_whole_claims_object_attached_witness :
    (∃ d : Decoded,
      verifyToken 0 (generateToken 0 ⟨"carol", [("role", "staff")]⟩) = some d ∧
      d.payload = ⟨"carol", [("role", "staff")]⟩ ∧ d.iat = 0 ∧ d.exp = 0 + tokenTTL) ∧
    (∃ t : String,
      extractToken (some ("Bearer " ++ generateToken 0 ⟨"carol", [("role", "staff")]⟩)) =
        some t ∧
      verifyToken 0 t = some ⟨⟨"carol", [("role", "staff")]⟩, 0, 0 + tokenTTL⟩) :=
  ⟨(c10_whole_claims_object_attached 0).1 ⟨"carol", [("role", "staff")]⟩,
   (c10_whole_claims_object_attached 0).2
     (some ("Bearer " ++ generateToken 0 ⟨"carol", [("role", "staff")]⟩))
     ⟨⟨"carol", [("role", "staff")]⟩, 0, 0 + tokenTTL⟩
     (gate_allows_fresh 0 ⟨"carol", [("role", "staff")]⟩)⟩
